import Mathlib

/-!
Shallow embedding of the mp4ameta metadata payload core:

* `src/data.rs` — the typed value codec (`Data`): the well-known type-code
  constants, `Data::len`, `Data::parse`, `Data::write_typed`, `Data::write_raw`,
  and the readers `read_u8_vec`, `read_u16_vec`, `read_utf8`, `read_utf16`.
* `src/content.rs` — the content tree (`Content`): `Content::len` and the
  hand-written `PartialEq` implementation (`eq` / `ne`).

Rust machine integers are modelled as `Nat` / `Int`; bytes are `Nat`s
(the functions only ever produce values below 256).  A seekable byte source
is a list of bytes together with a cursor position.  Writers return the list
of bytes they would emit.  Strings are lists of Unicode scalar values
(`List Char`), exactly the chars of a Rust `String`; the UTF-8 byte length
of such a string (what `String::len` returns in Rust) and the UTF-8 / UTF-16
encoders and strict validating decoders used by `String::from_utf8` /
`String::from_utf16` are defined below from the standard encoding tables.
-/

/-! ### Well-known data type codes (src/data.rs lines 8-33) -/

def TYPED : Int := -1
def RESERVED : Int := 0
def UTF8 : Int := 1
def UTF16 : Int := 2
def UTF8SORT : Int := 4
def UTF16SORT : Int := 5
def JPEG : Int := 13
def PNG : Int := 14
def BESIGNED : Int := 21
def BEUNSIGNED : Int := 22
def BEFLOAT32 : Int := 23
def BEFLOAT64 : Int := 24
def QTMETA : Int := 28

/-! ### Errors

The crate error type (`Error { kind, description }`) lives in a file that is
not part of the sources; the kinds used by the code under `src/` are modelled
from the spec, section 7: `Parsing`, `UnknownDataType(code)`,
`UnWritableDataType`, an I/O kind for propagated read failures, and an
encoding kind for invalid UTF-8 / UTF-16 data met during decode. -/

inductive ErrKind where
  | Parsing : ErrKind
  | UnknownDataType : Int → ErrKind
  | UnWritableDataType : ErrKind
  | Io : ErrKind
  | Encoding : ErrKind
deriving DecidableEq, Repr

structure Err where
  kind : ErrKind
  description : String
deriving DecidableEq, Repr

def ioErr : Err := ⟨ErrKind.Io, "io error"⟩

def encodingErr : Err := ⟨ErrKind.Encoding, "invalid string data"⟩

instance {ε α : Type} [DecidableEq ε] [DecidableEq α] : DecidableEq (Except ε α) :=
  fun a b =>
    match a, b with
    | Except.ok x, Except.ok y =>
        if h : x = y then isTrue (by rw [h]) else isFalse (by intro hc; cases hc; exact h rfl)
    | Except.error x, Except.error y =>
        if h : x = y then isTrue (by rw [h]) else isFalse (by intro hc; cases hc; exact h rfl)
    | Except.ok _, Except.error _ => isFalse (by intro hc; cases hc)
    | Except.error _, Except.ok _ => isFalse (by intro hc; cases hc)

/-! ### The byte source

A `Read + Seek` source (in the tests a cursor over a byte vector): the
underlying bytes plus the current position.  `read_exact` yields the next
`n` bytes and advances, failing without moving when fewer than `n` bytes
remain; `Seek` relative seeking just moves the cursor (a cursor may seek
past the end). -/

structure ByteReader where
  data : List Nat
  pos : Nat
deriving DecidableEq, Repr

def readExact (r : ByteReader) (n : Nat) : Except Err (List Nat × ByteReader) :=
  if r.pos + n ≤ r.data.length then
    Except.ok ((r.data.drop r.pos).take n, ⟨r.data, r.pos + n⟩)
  else
    Except.error ioErr

def seekCur (r : ByteReader) (n : Nat) : ByteReader := ⟨r.data, r.pos + n⟩

/-- Big-endian value of a byte sequence. -/
def beNat (l : List Nat) : Nat := l.foldl (fun a b => a * 256 + b) 0

/-- Reinterpret a Nat below 2^32 as a signed 32-bit value. -/
def toI32 (n : Nat) : Int := if n < 2 ^ 31 then (n : Int) else (n : Int) - 2 ^ 32

/-- ReadBytesExt read_i32 BigEndian : four bytes, big-endian, signed. -/
def readI32 (r : ByteReader) : Except Err (Int × ByteReader) :=
  match readExact r 4 with
  | Except.error e => Except.error e
  | Except.ok (bs, r1) => Except.ok (toI32 (beNat bs), r1)

/-- Big-endian byte encoding of a signed 32-bit value (write_i32 BigEndian). -/
def i32Bytes (v : Int) : List Nat :=
  [((v % 2 ^ 32).toNat / 2 ^ 24) % 256, ((v % 2 ^ 32).toNat / 2 ^ 16) % 256,
   ((v % 2 ^ 32).toNat / 2 ^ 8) % 256, (v % 2 ^ 32).toNat % 256]

/-! ### UTF-8 encoding and strict validation

`utf8EncodeChar` is the standard UTF-8 encoding of one Unicode scalar value,
as Rust String stores its text; `utf8DecodeChar` is the strict validator
used by String from_utf8: it rejects overlong forms, surrogate code points
and values above 0x10FFFF. -/

def utf8EncodeChar (c : Char) : List Nat :=
  if c.toNat < 0x80 then [c.toNat]
  else if c.toNat < 0x800 then
    [0xC0 + c.toNat / 64, 0x80 + c.toNat % 64]
  else if c.toNat < 0x10000 then
    [0xE0 + c.toNat / 4096, 0x80 + (c.toNat / 64) % 64, 0x80 + c.toNat % 64]
  else
    [0xF0 + c.toNat / 262144, 0x80 + (c.toNat / 4096) % 64,
     0x80 + (c.toNat / 64) % 64, 0x80 + c.toNat % 64]

def utf8Encode (s : List Char) : List Nat := (s.map utf8EncodeChar).flatten

/-- Byte length of the UTF-8 encoding of a string: what String len returns
in Rust. -/
def strLen (s : List Char) : Nat := (utf8Encode s).length

/-- Continuation byte check: 0x80 ≤ b < 0xC0. -/
def utf8Cont (b : Nat) : Bool := 0x80 ≤ b && b < 0xC0

def utf8DecodeChar : List Nat → Option (Char × List Nat)
  | [] => none
  | b0 :: t =>
    if b0 < 0x80 then some (Char.ofNat b0, t)
    else if b0 < 0xC2 then none
    else if b0 < 0xE0 then
      match t with
      | b1 :: t1 =>
        if utf8Cont b1 then some (Char.ofNat ((b0 - 0xC0) * 64 + (b1 - 0x80)), t1)
        else none
      | [] => none
    else if b0 < 0xF0 then
      match t with
      | b1 :: b2 :: t2 =>
        if (if b0 = 0xE0 then decide (0xA0 ≤ b1 && b1 < 0xC0)
            else if b0 = 0xED then decide (0x80 ≤ b1 && b1 < 0xA0)
            else utf8Cont b1) && utf8Cont b2 then
          some (Char.ofNat ((b0 - 0xE0) * 4096 + (b1 - 0x80) * 64 + (b2 - 0x80)), t2)
        else none
      | _ => none
    else if b0 < 0xF5 then
      match t with
      | b1 :: b2 :: b3 :: t3 =>
        if (if b0 = 0xF0 then decide (0x90 ≤ b1 && b1 < 0xC0)
            else if b0 = 0xF4 then decide (0x80 ≤ b1 && b1 < 0x90)
            else utf8Cont b1) && utf8Cont b2 && utf8Cont b3 then
          some (Char.ofNat ((b0 - 0xF0) * 262144 + (b1 - 0x80) * 4096 +
                            (b2 - 0x80) * 64 + (b3 - 0x80)), t3)
        else none
      | _ => none
    else none

/-- Decode a full byte list; the fuel only bounds the recursion and each
step consumes at least one byte, so fuel equal to the list length never
runs out. -/
def utf8DecodeAux : Nat → List Nat → Option (List Char)
  | _, [] => some []
  | 0, _ :: _ => none
  | fuel + 1, b :: t =>
    match utf8DecodeChar (b :: t) with
    | some (c, rest) =>
      match utf8DecodeAux fuel rest with
      | some s => some (c :: s)
      | none => none
    | none => none

/-- String from_utf8: strict validating decode of a whole byte list. -/
def fromUtf8 (l : List Nat) : Option (List Char) := utf8DecodeAux l.length l

/-! ### UTF-16 encoding and strict validation -/

/-- char encode_utf16: the code units (values below 0x10000) for one
Unicode scalar value. -/
def utf16EncodeChar (c : Char) : List Nat :=
  if c.toNat < 0x10000 then [c.toNat]
  else [0xD800 + (c.toNat - 0x10000) / 0x400, 0xDC00 + (c.toNat - 0x10000) % 0x400]

/-- str encode_utf16 over a whole string: the code-unit sequence. -/
def utf16Encode (s : List Char) : List Nat := (s.map utf16EncodeChar).flatten

/-- One step of String from_utf16: rejects unpaired surrogates. -/
def utf16DecodeChar : List Nat → Option (Char × List Nat)
  | [] => none
  | u :: t =>
    if u < 0xD800 then some (Char.ofNat u, t)
    else if u < 0xDC00 then
      match t with
      | u2 :: t2 =>
        if 0xDC00 ≤ u2 && u2 < 0xE000 then
          some (Char.ofNat (0x10000 + (u - 0xD800) * 0x400 + (u2 - 0xDC00)), t2)
        else none
      | [] => none
    else if u < 0xE000 then none
    else some (Char.ofNat u, t)

def utf16DecodeAux : Nat → List Nat → Option (List Char)
  | _, [] => some []
  | 0, _ :: _ => none
  | fuel + 1, u :: t =>
    match utf16DecodeChar (u :: t) with
    | some (c, rest) =>
      match utf16DecodeAux fuel rest with
      | some s => some (c :: s)
      | none => none
    | none => none

/-- String from_utf16: strict validating decode of a code-unit list. -/
def fromUtf16 (l : List Nat) : Option (List Char) := utf16DecodeAux l.length l

/-- write_u16 BigEndian: the two big-endian bytes of a 16-bit value. -/
def u16Bytes (u : Nat) : List Nat := [u / 256 % 256, u % 256]

/-- Big-endian bytes of a code-unit sequence. -/
def u16sBytes (us : List Nat) : List Nat := (us.map u16Bytes).flatten

/-- Group a byte list into big-endian 16-bit values (read_u16_into BigEndian). -/
def bytesToU16 : List Nat → List Nat
  | b0 :: b1 :: t => (b0 * 256 + b1) :: bytesToU16 t
  | _ => []

/-! ### Data (src/data.rs)

The `Unparsed` payload is the pending numeric type code; it is compared
against the `i8` constants above and against the `i32` read from a typed
sub-header, so it is modelled as `Int`. -/

inductive Data where
  | Reserved : List Nat → Data
  | Utf8 : List Char → Data
  | Utf16 : List Char → Data
  | Jpeg : List Nat → Data
  | Png : List Nat → Data
  | Unparsed : Int → Data
deriving DecidableEq, Repr

namespace Data

/-- Data len (src/data.rs lines 55-64).  Rust String len is the UTF-8 byte
count, embedded as `strLen`. -/
def len : Data → Nat
  | Data.Reserved v => v.length
  | Data.Utf8 s => strLen s
  | Data.Utf16 s => strLen s * 2
  | Data.Jpeg v => v.length
  | Data.Png v => v.length
  | _ => 0

/-- Data read_u8_vec (src/data.rs lines 164-172). -/
def read_u8_vec (r : ByteReader) (length : Nat) : Except Err (List Nat × ByteReader) :=
  readExact r length

/-- Data read_u16_vec (src/data.rs lines 175-183): reads `length` big-endian
16-bit values, so `2 * length` bytes. -/
def read_u16_vec (r : ByteReader) (length : Nat) : Except Err (List Nat × ByteReader) :=
  match readExact r (2 * length) with
  | Except.ok (bs, r1) => Except.ok (bytesToU16 bs, r1)
  | Except.error e => Except.error e

/-- Data read_utf8 (src/data.rs lines 186-193). -/
def read_utf8 (r : ByteReader) (length : Nat) : Except Err (List Char × ByteReader) :=
  match read_u8_vec r length with
  | Except.error e => Except.error e
  | Except.ok (bytes, r1) =>
    match fromUtf8 bytes with
    | some s => Except.ok (s, r1)
    | none => Except.error encodingErr

/-- Data read_utf16 (src/data.rs lines 196-207): reads `length / 2` code
units, then skips one byte when `length` is odd, then validates. -/
def read_utf16 (r : ByteReader) (length : Nat) : Except Err (List Char × ByteReader) :=
  match read_u16_vec r (length / 2) with
  | Except.error e => Except.error e
  | Except.ok (units, r1) =>
    let r2 := if length % 2 = 1 then seekCur r1 1 else r1
    match fromUtf16 units with
    | some s => Except.ok (s, r2)
    | none => Except.error encodingErr

/-- The `match datatype` dispatch inside Data parse (src/data.rs lines
91-101); `self` is returned unchanged on every failing path. -/
def parseDispatch (self : Data) (datatype : Int) (l : Nat) (r : ByteReader) :
    Except Err Unit × Data × ByteReader :=
  if datatype = RESERVED then
    match read_u8_vec r l with
    | Except.ok (v, r1) => (Except.ok (), Data.Reserved v, r1)
    | Except.error e => (Except.error e, self, r)
  else if datatype = UTF8 then
    match read_utf8 r l with
    | Except.ok (s, r1) => (Except.ok (), Data.Utf8 s, r1)
    | Except.error e => (Except.error e, self, r)
  else if datatype = UTF16 then
    match read_utf16 r l with
    | Except.ok (s, r1) => (Except.ok (), Data.Utf16 s, r1)
    | Except.error e => (Except.error e, self, r)
  else if datatype = JPEG then
    match read_u8_vec r l with
    | Except.ok (v, r1) => (Except.ok (), Data.Jpeg v, r1)
    | Except.error e => (Except.error e, self, r)
  else if datatype = PNG then
    match read_u8_vec r l with
    | Except.ok (v, r1) => (Except.ok (), Data.Png v, r1)
    | Except.error e => (Except.error e, self, r)
  else
    (Except.error ⟨ErrKind.UnknownDataType datatype, "Unknown datatype code"⟩, self, r)

/-- Data parse (src/data.rs lines 67-110).  The Rust method mutates `self`
and the reader and returns `Result<()>`; here it returns the result
together with the new value and reader state, the failing paths leaving the
value as it was. -/
def parse (self : Data) (r : ByteReader) (length : Nat) :
    Except Err Unit × Data × ByteReader :=
  match self with
  | Data.Unparsed d =>
    if d = TYPED then
      if length > 8 then
        match readI32 r with
        | Except.error e => (Except.error e, self, r)
        | Except.ok (dt, r1) =>
          -- skipping 4 byte data offset
          parseDispatch self dt (length - 8) (seekCur r1 4)
      else
        (Except.error ⟨ErrKind.Parsing, "Typed data head to short"⟩, self, r)
    else
      parseDispatch self d length r
  | _ => (Except.error ⟨ErrKind.Parsing, "Data already parsed"⟩, self, r)

/-- Data write_raw (src/data.rs lines 135-161): the bytes written to the
sink, or the unwritable-data error for `Unparsed`. -/
def write_raw : Data → Except Err (List Nat)
  | Data.Reserved v => Except.ok v
  | Data.Utf8 s => Except.ok (utf8Encode s)
  | Data.Utf16 s => Except.ok (u16sBytes (utf16Encode s))
  | Data.Jpeg v => Except.ok v
  | Data.Png v => Except.ok v
  | Data.Unparsed _ =>
    Except.error ⟨ErrKind.UnWritableDataType, "Data of type Data::Unparsed cannot be written."⟩

/-- Data write_typed (src/data.rs lines 113-132): a 4-byte signed big-endian
type code, 4 zero bytes, then the raw payload. -/
def write_typed (self : Data) : Except Err (List Nat) :=
  match self with
  | Data.Unparsed _ =>
    Except.error ⟨ErrKind.UnWritableDataType, "Data of type Data::Unparsed can't be written."⟩
  | d =>
    let datatype : Int :=
      match d with
      | Data.Reserved _ => RESERVED
      | Data.Utf8 _ => UTF8
      | Data.Utf16 _ => UTF16
      | Data.Jpeg _ => JPEG
      | _ => PNG
    match d.write_raw with
    | Except.ok raw => Except.ok (i32Bytes datatype ++ i32Bytes 0 ++ raw)
    | Except.error e => Except.error e

end Data

/-! ### Content and Atom (src/content.rs)

`Atom` itself lives in a source file that is not present.
Modelled from the spec: an AtomNode owns a 4-byte tag, a fixed skip-offset
and one `Content`; when serialized it emits its own tag and size fields
(8 bytes), the skip-offset padding, and its body, so its serialized length
is `8 + offset + content.len()`.  Its equality (the derived one used by
`Vec<Atom> ==` in `Content::eq`) compares tag, offset and content. -/

mutual
inductive Atom where
  | mk : List Nat → Nat → Content → Atom

inductive Content where
  | Atoms : List Atom → Content
  | RawData : Data → Content
  | TypedData : Data → Content
  | Empty : Content
end

mutual
/-- Modelled from the spec: Atom len — tag and size fields, skip-offset
padding, then the body. -/
def Atom.len : Atom → Nat
  | Atom.mk _ offset content => 8 + offset + Content.len content

/-- Content len (src/content.rs lines 63-70). -/
def Content.len : Content → Nat
  | Content.Atoms v => atomsLen v
  | Content.TypedData d => 8 + d.len
  | Content.RawData d => d.len
  | Content.Empty => 0

/-- The sum in the `Content::Atoms` arm of Content len. -/
def atomsLen : List Atom → Nat
  | [] => 0
  | a :: t => Atom.len a + atomsLen t
end

mutual
/-- Modelled from the spec: the derived Atom equality, comparing tag,
offset and content. -/
def Atom.beq : Atom → Atom → Bool
  | Atom.mk h1 o1 c1, Atom.mk h2 o2 c2 => h1 == h2 && o1 == o2 && Content.eq c1 c2

/-- The hand-written `PartialEq::eq` for Content (src/content.rs lines
99-115): same variant and equal payload, otherwise false. -/
def Content.eq : Content → Content → Bool
  | Content.Atoms v, other =>
    match other with
    | Content.Atoms ov => atomsBeq v ov
    | _ => false
  | Content.RawData d, other =>
    match other with
    | Content.RawData od => d == od
    | _ => false
  | Content.TypedData d, other =>
    match other with
    | Content.TypedData od => d == od
    | _ => false
  | Content.Empty, other =>
    match other with
    | Content.Empty => true
    | _ => false

/-- `Vec<Atom>` equality: element-wise, equal lengths. -/
def atomsBeq : List Atom → List Atom → Bool
  | [], [] => true
  | a :: t, b :: u => Atom.beq a b && atomsBeq t u
  | _, _ => false
end

/-- The hand-written `PartialEq::ne` for Content (src/content.rs lines
117-131).  Note the `Empty` arm: it returns true when the other value is
`Empty` as well, instead of false. -/
def Content.ne : Content → Content → Bool
  | Content.Atoms v, other =>
    match other with
    | Content.Atoms ov => !(atomsBeq v ov)
    | _ => true
  | Content.RawData d, other =>
    match other with
    | Content.RawData od => !(d == od)
    | _ => true
  | Content.TypedData d, other =>
    match other with
    | Content.TypedData od => !(d == od)
    | _ => true
  | Content.Empty, other =>
    match other with
    | Content.Empty => true
    | _ => true

theorem utf8DecodeChar_encode (c : Char) (rest : List Nat) :
    utf8DecodeChar (utf8EncodeChar c ++ rest) = some (c, rest) := by
  have hv : c.toNat < 0xD800 ∨ (0xDFFF < c.toNat ∧ c.toNat < 0x110000) := c.valid
  by_cases h1 : c.toNat < 0x80
  · rw [utf8EncodeChar, if_pos h1]
    simp only [List.cons_append, List.nil_append, utf8DecodeChar]
    rw [if_pos h1, Char.ofNat_toNat]
  · by_cases h2 : c.toNat < 0x800
    · have e1 : utf8EncodeChar c = [0xC0 + c.toNat / 64, 0x80 + c.toNat % 64] := by
        rw [utf8EncodeChar, if_neg h1, if_pos h2]
      have p1 : ¬ (0xC0 + c.toNat / 64 < 0x80) := by omega
      have p2 : ¬ (0xC0 + c.toNat / 64 < 0xC2) := by omega
      have p3 : 0xC0 + c.toNat / 64 < 0xE0 := by omega
      have p4 : utf8Cont (0x80 + c.toNat % 64) = true := by
        simp only [utf8Cont, Bool.and_eq_true, decide_eq_true_eq]
        omega
      have p5 : (0xC0 + c.toNat / 64 - 0xC0) * 64 + (0x80 + c.toNat % 64 - 0x80) = c.toNat := by
        omega
      rw [e1]
      simp only [List.cons_append, List.nil_append, utf8DecodeChar]
      rw [if_neg p1, if_neg p2, if_pos p3, if_pos p4, p5, Char.ofNat_toNat]
    · by_cases h3 : c.toNat < 0x10000
      · have e1 : utf8EncodeChar c =
            [0xE0 + c.toNat / 4096, 0x80 + (c.toNat / 64) % 64, 0x80 + c.toNat % 64] := by
          rw [utf8EncodeChar, if_neg h1, if_neg h2, if_pos h3]
        have p1 : ¬ (0xE0 + c.toNat / 4096 < 0x80) := by omega
        have p2 : ¬ (0xE0 + c.toNat / 4096 < 0xC2) := by omega
        have p3 : ¬ (0xE0 + c.toNat / 4096 < 0xE0) := by omega
        have p4 : 0xE0 + c.toNat / 4096 < 0xF0 := by omega
        have p6 : utf8Cont (0x80 + c.toNat % 64) = true := by
          simp only [utf8Cont, Bool.and_eq_true, decide_eq_true_eq]
          omega
        have p5 : (0xE0 + c.toNat / 4096 - 0xE0) * 4096 + (0x80 + (c.toNat / 64) % 64 - 0x80) * 64
            + (0x80 + c.toNat % 64 - 0x80) = c.toNat := by omega
        rw [e1]
        simp only [List.cons_append, List.nil_append, utf8DecodeChar]
        rw [if_neg p1, if_neg p2, if_neg p3, if_pos p4]
        by_cases hE0 : (0xE0 + c.toNat / 4096 : Nat) = 0xE0
        · rw [if_pos hE0]
          have q : (decide (0xA0 ≤ 0x80 + (c.toNat / 64) % 64 && 0x80 + (c.toNat / 64) % 64 < 0xC0)
              && utf8Cont (0x80 + c.toNat % 64)) = true := by
            simp only [utf8Cont, Bool.and_eq_true, decide_eq_true_eq]
            omega
          rw [if_pos q, p5, Char.ofNat_toNat]
        · rw [if_neg hE0]
          by_cases hED : (0xE0 + c.toNat / 4096 : Nat) = 0xED
          · rw [if_pos hED]
            have q : (decide (0x80 ≤ 0x80 + (c.toNat / 64) % 64 && 0x80 + (c.toNat / 64) % 64 < 0xA0)
                && utf8Cont (0x80 + c.toNat % 64)) = true := by
              simp only [utf8Cont, Bool.and_eq_true, decide_eq_true_eq]
              omega
            rw [if_pos q, p5, Char.ofNat_toNat]
          · rw [if_neg hED]
            have q : (utf8Cont (0x80 + (c.toNat / 64) % 64)
                && utf8Cont (0x80 + c.toNat % 64)) = true := by
              simp only [utf8Cont, Bool.and_eq_true, decide_eq_true_eq]
              omega
            rw [if_pos q, p5, Char.ofNat_toNat]
      · have e1 : utf8EncodeChar c =
            [0xF0 + c.toNat / 262144, 0x80 + (c.toNat / 4096) % 64,
             0x80 + (c.toNat / 64) % 64, 0x80 + c.toNat % 64] := by
          rw [utf8EncodeChar, if_neg h1, if_neg h2, if_neg h3]
        have hub : c.toNat < 0x110000 := by omega
        have p1 : ¬ (0xF0 + c.toNat / 262144 < 0x80) := by omega
        have p2 : ¬ (0xF0 + c.toNat / 262144 < 0xC2) := by omega
        have p3 : ¬ (0xF0 + c.toNat / 262144 < 0xE0) := by omega
        have p4 : ¬ (0xF0 + c.toNat / 262144 < 0xF0) := by omega
        have p4b : 0xF0 + c.toNat / 262144 < 0xF5 := by omega
        have p5 : (0xF0 + c.toNat / 262144 - 0xF0) * 262144
            + (0x80 + (c.toNat / 4096) % 64 - 0x80) * 4096
            + (0x80 + (c.toNat / 64) % 64 - 0x80) * 64
            + (0x80 + c.toNat % 64 - 0x80) = c.toNat := by omega
        rw [e1]
        simp only [List.cons_append, List.nil_append, utf8DecodeChar]
        rw [if_neg p1, if_neg p2, if_neg p3, if_neg p4, if_pos p4b]
        by_cases hF0 : (0xF0 + c.toNat / 262144 : Nat) = 0xF0
        · rw [if_pos hF0]
          have q : (decide (0x90 ≤ 0x80 + (c.toNat / 4096) % 64 && 0x80 + (c.toNat / 4096) % 64 < 0xC0)
              && utf8Cont (0x80 + (c.toNat / 64) % 64) && utf8Cont (0x80 + c.toNat % 64)) = true := by
            simp only [utf8Cont, Bool.and_eq_true, decide_eq_true_eq]
            omega
          rw [if_pos q, p5, Char.ofNat_toNat]
        · rw [if_neg hF0]
          by_cases hF4 : (0xF0 + c.toNat / 262144 : Nat) = 0xF4
          · rw [if_pos hF4]
            have q : (decide (0x80 ≤ 0x80 + (c.toNat / 4096) % 64 && 0x80 + (c.toNat / 4096) % 64 < 0x90)
                && utf8Cont (0x80 + (c.toNat / 64) % 64) && utf8Cont (0x80 + c.toNat % 64)) = true := by
              simp only [utf8Cont, Bool.and_eq_true, decide_eq_true_eq]
              omega
            rw [if_pos q, p5, Char.ofNat_toNat]
          · rw [if_neg hF4]
            have q : (utf8Cont (0x80 + (c.toNat / 4096) % 64)
                && utf8Cont (0x80 + (c.toNat / 64) % 64) && utf8Cont (0x80 + c.toNat % 64)) = true := by
              simp only [utf8Cont, Bool.and_eq_true, decide_eq_true_eq]
              omega
            rw [if_pos q, p5, Char.ofNat_toNat]

theorem utf8EncodeChar_length_pos (c : Char) : 0 < (utf8EncodeChar c).length := by
  rw [utf8EncodeChar]
  split_ifs <;> simp

theorem utf8DecodeAux_encode (s : List Char) : ∀ fuel, (utf8Encode s).length ≤ fuel →
    utf8DecodeAux fuel (utf8Encode s) = some s := by
  induction s with
  | nil =>
    intro fuel _
    have h0 : utf8Encode [] = [] := rfl
    rw [h0]
    cases fuel <;> rfl
  | cons c t ih =>
    intro fuel hfuel
    have hne : utf8Encode (c :: t) = utf8EncodeChar c ++ utf8Encode t := by
      simp [utf8Encode]
    have hpos : 0 < (utf8EncodeChar c).length := utf8EncodeChar_length_pos c
    match fuel with
    | 0 =>
      exfalso
      rw [hne, List.length_append] at hfuel
      omega
    | f + 1 =>
      have hnil : utf8Encode (c :: t) ≠ [] := by
        rw [hne]
        intro hc
        rw [List.append_eq_nil] at hc
        have := hc.1
        simp [this] at hpos
      obtain ⟨b, t', he⟩ := List.exists_cons_of_ne_nil hnil
      rw [he]
      simp only [utf8DecodeAux]
      rw [← he, hne, utf8DecodeChar_encode]
      have hrest : (utf8Encode t).length ≤ f := by
        rw [hne, List.length_append] at hfuel
        omega
      show (match utf8DecodeAux f (utf8Encode t) with
            | some s => some (c :: s)
            | none => none) = some (c :: t)
      rw [ih f hrest]

theorem fromUtf8_encode (s : List Char) : fromUtf8 (utf8Encode s) = some s :=
  utf8DecodeAux_encode s (utf8Encode s).length le_rfl

theorem utf16DecodeChar_encode (c : Char) (rest : List Nat) :
    utf16DecodeChar (utf16EncodeChar c ++ rest) = some (c, rest) := by
  have hv : c.toNat < 0xD800 ∨ (0xDFFF < c.toNat ∧ c.toNat < 0x110000) := c.valid
  by_cases h1 : c.toNat < 0x10000
  · rw [utf16EncodeChar, if_pos h1]
    simp only [List.cons_append, List.nil_append, utf16DecodeChar]
    by_cases h2 : c.toNat < 0xD800
    · rw [if_pos h2, Char.ofNat_toNat]
    · have h3 : ¬ (c.toNat < 0xDC00) := by omega
      have h4 : ¬ (c.toNat < 0xE000) := by omega
      rw [if_neg h2, if_neg h3, if_neg h4, Char.ofNat_toNat]
  · have hub : c.toNat < 0x110000 := by omega
    rw [utf16EncodeChar, if_neg h1]
    simp only [List.cons_append, List.nil_append, utf16DecodeChar]
    have p1 : ¬ (0xD800 + (c.toNat - 0x10000) / 0x400 < 0xD800) := by omega
    have p2 : 0xD800 + (c.toNat - 0x10000) / 0x400 < 0xDC00 := by omega
    have p3 : (decide (0xDC00 ≤ 0xDC00 + (c.toNat - 0x10000) % 0x400) &&
        decide (0xDC00 + (c.toNat - 0x10000) % 0x400 < 0xE000)) = true := by
      simp only [Bool.and_eq_true, decide_eq_true_eq]
      omega
    have p4 : 0x10000 + (0xD800 + (c.toNat - 0x10000) / 0x400 - 0xD800) * 0x400
        + (0xDC00 + (c.toNat - 0x10000) % 0x400 - 0xDC00) = c.toNat := by omega
    rw [if_neg p1, if_pos p2, if_pos p3, p4, Char.ofNat_toNat]

theorem utf16EncodeChar_length_pos (c : Char) : 0 < (utf16EncodeChar c).length := by
  rw [utf16EncodeChar]
  split_ifs <;> simp

theorem utf16DecodeAux_encode (s : List Char) : ∀ fuel, (utf16Encode s).length ≤ fuel →
    utf16DecodeAux fuel (utf16Encode s) = some s := by
  induction s with
  | nil =>
    intro fuel _
    have h0 : utf16Encode [] = [] := rfl
    rw [h0]
    cases fuel <;> rfl
  | cons c t ih =>
    intro fuel hfuel
    have hne : utf16Encode (c :: t) = utf16EncodeChar c ++ utf16Encode t := by
      simp [utf16Encode]
    have hpos : 0 < (utf16EncodeChar c).length := utf16EncodeChar_length_pos c
    match fuel with
    | 0 =>
      exfalso
      rw [hne, List.length_append] at hfuel
      omega
    | f + 1 =>
      have hnil : utf16Encode (c :: t) ≠ [] := by
        rw [hne]
        intro hc
        rw [List.append_eq_nil] at hc
        have := hc.1
        simp [this] at hpos
      obtain ⟨b, t', he⟩ := List.exists_cons_of_ne_nil hnil
      rw [he]
      simp only [utf16DecodeAux]
      rw [← he, hne, utf16DecodeChar_encode]
      have hrest : (utf16Encode t).length ≤ f := by
        rw [hne, List.length_append] at hfuel
        omega
      show (match utf16DecodeAux f (utf16Encode t) with
            | some s => some (c :: s)
            | none => none) = some (c :: t)
      rw [ih f hrest]

theorem fromUtf16_encode (s : List Char) : fromUtf16 (utf16Encode s) = some s :=
  utf16DecodeAux_encode s (utf16Encode s).length le_rfl

theorem utf16EncodeChar_lt (c : Char) : ∀ u ∈ utf16EncodeChar c, u < 0x10000 := by
  have hv : c.toNat < 0xD800 ∨ (0xDFFF < c.toNat ∧ c.toNat < 0x110000) := c.valid
  intro u hu
  rw [utf16EncodeChar] at hu
  by_cases h1 : c.toNat < 0x10000
  · rw [if_pos h1] at hu
    simp at hu
    omega
  · rw [if_neg h1] at hu
    simp at hu
    rcases hu with h | h <;> omega

theorem utf16Encode_lt (s : List Char) : ∀ u ∈ utf16Encode s, u < 0x10000 := by
  intro u hu
  rw [utf16Encode, List.mem_flatten] at hu
  obtain ⟨l, hl, hul⟩ := hu
  rw [List.mem_map] at hl
  obtain ⟨c, _, hc⟩ := hl
  exact utf16EncodeChar_lt c u (hc ▸ hul)

theorem bytesToU16_u16sBytes (us : List Nat) (hus : ∀ u ∈ us, u < 0x10000) :
    bytesToU16 (u16sBytes us) = us := by
  induction us with
  | nil => rfl
  | cons u t ih =>
    have hu : u < 0x10000 := hus u (by simp)
    have ht : ∀ x ∈ t, x < 0x10000 := fun x hx => hus x (by simp [hx])
    have he : u16sBytes (u :: t) = u / 256 % 256 :: u % 256 :: u16sBytes t := by
      simp [u16sBytes, u16Bytes]
    rw [he, bytesToU16, ih ht]
    congr 1
    omega

theorem readExact_split (buf mid post : List Nat) (p n : Nat) (hp : p ≤ buf.length)
    (hmid : mid.length = n) (hdrop : buf.drop p = mid ++ post) :
    readExact ⟨buf, p⟩ n = Except.ok (mid, ⟨buf, p + n⟩) := by
  subst hmid
  have hlen : (buf.drop p).length = buf.length - p := List.length_drop _ _
  rw [hdrop, List.length_append] at hlen
  unfold readExact
  rw [if_pos (by simp; omega)]
  simp only [Except.ok.injEq, Prod.mk.injEq]
  constructor
  · show List.take mid.length (List.drop p buf) = mid
    rw [hdrop, List.take_left]
  · trivial

theorem parse_unparsed_not_typed (c : Int) (hc : c ≠ TYPED) (r : ByteReader) (l : Nat) :
    Data.parse (Data.Unparsed c) r l = Data.parseDispatch (Data.Unparsed c) c l r := by
  simp only [Data.parse]
  rw [if_neg hc]

theorem u16sBytes_length (us : List Nat) : (u16sBytes us).length = 2 * us.length := by
  induction us with
  | nil => rfl
  | cons u t ih =>
    simp only [u16sBytes, List.map_cons, List.flatten_cons, List.length_append,
      List.length_cons, u16Bytes, List.length_nil] at *
    omega

theorem dispatch_reserved (self : Data) (buf v post : List Nat) (p : Nat)
    (hp : p ≤ buf.length) (hdrop : buf.drop p = v ++ post) :
    Data.parseDispatch self RESERVED v.length ⟨buf, p⟩
      = (Except.ok (), Data.Reserved v, ⟨buf, p + v.length⟩) := by
  simp only [Data.parseDispatch, if_pos]
  rw [Data.read_u8_vec, readExact_split buf v post p v.length hp rfl hdrop]

theorem dispatch_utf8 (self : Data) (buf post : List Nat) (s : List Char) (p : Nat)
    (hp : p ≤ buf.length) (hdrop : buf.drop p = utf8Encode s ++ post) :
    Data.parseDispatch self UTF8 (utf8Encode s).length ⟨buf, p⟩
      = (Except.ok (), Data.Utf8 s, ⟨buf, p + (utf8Encode s).length⟩) := by
  simp only [Data.parseDispatch]
  rw [if_neg (by decide : ¬ (UTF8 = RESERVED)), if_true]
  rw [Data.read_utf8, Data.read_u8_vec,
    readExact_split buf (utf8Encode s) post p (utf8Encode s).length hp rfl hdrop]
  simp [fromUtf8_encode s]

theorem dispatch_utf16 (self : Data) (buf post : List Nat) (s : List Char) (p : Nat)
    (hp : p ≤ buf.length) (hdrop : buf.drop p = u16sBytes (utf16Encode s) ++ post) :
    Data.parseDispatch self UTF16 (u16sBytes (utf16Encode s)).length ⟨buf, p⟩
      = (Except.ok (), Data.Utf16 s, ⟨buf, p + (u16sBytes (utf16Encode s)).length⟩) := by
  have hblen : (u16sBytes (utf16Encode s)).length = 2 * (utf16Encode s).length :=
    u16sBytes_length _
  simp only [Data.parseDispatch]
  rw [if_neg (by decide : ¬ (UTF16 = RESERVED)), if_neg (by decide : ¬ (UTF16 = UTF8)), if_true]
  rw [Data.read_utf16, Data.read_u16_vec]
  rw [readExact_split buf (u16sBytes (utf16Encode s)) post p
    (2 * ((u16sBytes (utf16Encode s)).length / 2)) hp (by omega) hdrop]
  have hmod : ¬ ((u16sBytes (utf16Encode s)).length % 2 = 1) := by omega
  simp only [hmod, if_false, bytesToU16_u16sBytes (utf16Encode s) (utf16Encode_lt s),
    fromUtf16_encode s]
  simp
  omega

theorem dispatch_jpeg (self : Data) (buf v post : List Nat) (p : Nat)
    (hp : p ≤ buf.length) (hdrop : buf.drop p = v ++ post) :
    Data.parseDispatch self JPEG v.length ⟨buf, p⟩
      = (Except.ok (), Data.Jpeg v, ⟨buf, p + v.length⟩) := by
  simp only [Data.parseDispatch]
  rw [if_neg (by decide : ¬ (JPEG = RESERVED)), if_neg (by decide : ¬ (JPEG = UTF8)),
    if_neg (by decide : ¬ (JPEG = UTF16)), if_true]
  rw [Data.read_u8_vec, readExact_split buf v post p v.length hp rfl hdrop]

theorem dispatch_png (self : Data) (buf v post : List Nat) (p : Nat)
    (hp : p ≤ buf.length) (hdrop : buf.drop p = v ++ post) :
    Data.parseDispatch self PNG v.length ⟨buf, p⟩
      = (Except.ok (), Data.Png v, ⟨buf, p + v.length⟩) := by
  simp only [Data.parseDispatch]
  rw [if_neg (by decide : ¬ (PNG = RESERVED)), if_neg (by decide : ¬ (PNG = UTF8)),
    if_neg (by decide : ¬ (PNG = UTF16)), if_neg (by decide : ¬ (PNG = JPEG)), if_true]
  rw [Data.read_u8_vec, readExact_split buf v post p v.length hp rfl hdrop]

theorem parse_unknown (code : Int) (r : ByteReader) (l : Nat)
    (h0 : code ≠ TYPED) (h1 : code ≠ RESERVED) (h2 : code ≠ UTF8) (h3 : code ≠ UTF16)
    (h4 : code ≠ JPEG) (h5 : code ≠ PNG) :
    Data.parse (Data.Unparsed code) r l
      = (Except.error ⟨ErrKind.UnknownDataType code, "Unknown datatype code"⟩,
         Data.Unparsed code, r) := by
  rw [parse_unparsed_not_typed code h0]
  simp only [Data.parseDispatch]
  rw [if_neg h1, if_neg h2, if_neg h3, if_neg h4, if_neg h5]

theorem parse_typed_short (r : ByteReader) (l : Nat) (hl : l ≤ 8) :
    Data.parse (Data.Unparsed TYPED) r l
      = (Except.error ⟨ErrKind.Parsing, "Typed data head to short"⟩,
         Data.Unparsed TYPED, r) := by
  simp only [Data.parse, if_pos]
  rw [if_neg (by omega : ¬ (l > 8))]

theorem parse_typed_header (r : ByteReader) (l : Nat) (hl : 8 < l)
    (hp : r.pos + 4 ≤ r.data.length) :
    Data.parse (Data.Unparsed TYPED) r l
      = Data.parseDispatch (Data.Unparsed TYPED)
          (toI32 (beNat ((r.data.drop r.pos).take 4))) (l - 8) ⟨r.data, r.pos + 8⟩ := by
  obtain ⟨buf, p⟩ := r
  simp only at hp
  simp only [Data.parse, if_pos]
  rw [if_pos hl]
  have hmid : ((buf.drop p).take 4).length = 4 := by
    rw [List.length_take, List.length_drop]
    omega
  have hsplit := readExact_split buf ((buf.drop p).take 4) ((buf.drop p).drop 4) p 4
    (by omega) hmid (by rw [List.take_append_drop])
  simp only [readI32, hsplit]
  show Data.parseDispatch _ _ (l - 8) (seekCur ⟨buf, p + 4⟩ 4) = _
  have : seekCur ⟨buf, p + 4⟩ 4 = ⟨buf, p + 8⟩ := by
    simp [seekCur]
  rw [this]

theorem parse_typed_step (code : Int) (raw : List Nat) (hne : raw ≠ [])
    (hc : toI32 (beNat (i32Bytes code)) = code) :
    Data.parse (Data.Unparsed TYPED) ⟨i32Bytes code ++ [0, 0, 0, 0] ++ raw, 0⟩
        (i32Bytes code ++ [0, 0, 0, 0] ++ raw).length
      = Data.parseDispatch (Data.Unparsed TYPED) code raw.length
          ⟨i32Bytes code ++ [0, 0, 0, 0] ++ raw, 8⟩ := by
  have hi : (i32Bytes code).length = 4 := by simp [i32Bytes]
  have hrawpos : 0 < raw.length := List.length_pos.mpr hne
  have hlen : (i32Bytes code ++ [0, 0, 0, 0] ++ raw).length = 8 + raw.length := by
    simp [hi]
    omega
  rw [parse_typed_header _ _ (by rw [hlen]; omega) (by simp only [hlen]; omega)]
  have htake : ((i32Bytes code ++ [0, 0, 0, 0] ++ raw).drop 0).take 4 = i32Bytes code := by
    rw [List.drop_zero, List.append_assoc, ← hi, List.take_left]
  rw [htake, hc, hlen]
  have : 8 + raw.length - 8 = raw.length := by omega
  rw [this]


/-! ### The claims -/

/-- Claim C1, counterexample: for the one-character string "é" (U+00E9,
one Unicode scalar value, two UTF-8 bytes), `Utf16` len is 4, not
2 × 1 = 2: len is twice the UTF-8 byte count of the string, not twice the
number of Unicode scalar values. -/
theorem C1_counterexample :
    ¬ ((Data.Utf16 [Char.ofNat 0xE9]).len
        = 2 * ([Char.ofNat 0xE9] : List Char).length) := by
  decide

/-- Claim C1, amended: for every `Utf16` value, len returns twice the
number of bytes in the UTF-8 encoding of the contained string (`String::len`
of the Rust string), independent of the number of 16-bit code units the
characters need. -/
theorem C1_utf16_len (s : List Char) :
    (Data.Utf16 s).len = 2 * (utf8Encode s).length := by
  simp [Data.len, strLen, Nat.mul_comm]

/-- Claim C4: decoding a value that is already resolved (any variant other
than `Unparsed`) fails with the `Parsing` error "Data already parsed" for
every byte source and declared length, and leaves the value and the source
unchanged. -/
theorem C4_already_parsed (d : Data) (r : ByteReader) (l : Nat)
    (h : ∀ code, d ≠ Data.Unparsed code) :
    Data.parse d r l
      = (Except.error ⟨ErrKind.Parsing, "Data already parsed"⟩, d, r) := by
  cases d with
  | Reserved v => rfl
  | Utf8 s => rfl
  | Utf16 s => rfl
  | Jpeg v => rfl
  | Png v => rfl
  | Unparsed code => exact absurd rfl (h code)

theorem C4_already_parsed_witness :
    Data.parse (Data.Utf8 []) ⟨[5], 0⟩ 1
      = (Except.error ⟨ErrKind.Parsing, "Data already parsed"⟩, Data.Utf8 [], ⟨[5], 0⟩) :=
  C4_already_parsed (Data.Utf8 []) ⟨[5], 0⟩ 1 (fun _ h => Data.noConfusion h)

/-- Claim C8: `Content` len satisfies the structural equations: an `Atoms`
container's len is the sum of its children's len values (so 0 for an empty
list), `TypedData d` has len `8 + d.len`, `RawData d` has len `d.len`, and
`Empty` has len 0; len is a total function. -/
theorem C8_content_len :
    (∀ v, Content.len (Content.Atoms v) = (v.map Atom.len).sum)
    ∧ (∀ d, Content.len (Content.TypedData d) = 8 + d.len)
    ∧ (∀ d, Content.len (Content.RawData d) = d.len)
    ∧ Content.len Content.Empty = 0 := by
  refine ⟨?_, fun _ => rfl, fun _ => rfl, rfl⟩
  intro v
  show atomsLen v = (v.map Atom.len).sum
  induction v with
  | nil => rfl
  | cons a t ih => rw [atomsLen, ih, List.map_cons, List.sum_cons]

/-- Claim C9, counterexample: decoding the TYPED value of length 10 from
bytes `00 00 00 01 / 00 00 00 00 / 58 59` does produce `Utf8 "XY"`, but
that value's len is 2 (the UTF-8 byte count of "XY"), not 10. -/
theorem C9_counterexample :
    (Data.parse (Data.Unparsed TYPED) ⟨[0, 0, 0, 1, 0, 0, 0, 0, 0x58, 0x59], 0⟩ 10).2.1
        = Data.Utf8 ['X', 'Y']
    ∧ (Data.Utf8 ['X', 'Y']).len ≠ 10 := by
  decide

/-- Claim C9, amended: decoding an `Unparsed` value carrying the TYPED
sentinel with declared length 10 from the bytes
`[0,0,0,1, 0,0,0,0, 0x58,0x59]` succeeds, consumes all 10 bytes and yields
`Utf8 "XY"`; the resulting value's len equals 2, the byte length of the
payload after the 8-byte sub-header. -/
theorem C9_typed_utf8_example :
    Data.parse (Data.Unparsed TYPED) ⟨[0, 0, 0, 1, 0, 0, 0, 0, 0x58, 0x59], 0⟩ 10
        = (Except.ok (), Data.Utf8 ['X', 'Y'], ⟨[0, 0, 0, 1, 0, 0, 0, 0, 0x58, 0x59], 10⟩)
    ∧ (Data.Utf8 ['X', 'Y']).len = 2 := by
  decide

/-- Claim C10: the hand-written `PartialEq` for `Content` makes `ne` return
true on the pair `(Empty, Empty)` even though `eq` also returns true there,
so `ne` is not the negation of `eq`. -/
theorem C10_partialeq_empty :
    Content.eq Content.Empty Content.Empty = true
    ∧ Content.ne Content.Empty Content.Empty = true :=
  ⟨rfl, rfl⟩

/-- Claim C2: for a `Reserved`, `Utf8`, `Jpeg` or `Png` value whose raw
payload occupies L bytes, writing with write_raw and decoding the written
bytes into an `Unparsed` value carrying the same type code with declared
length L reproduces an equal value, whose len equals L. -/
theorem C2_raw_roundtrip (d : Data) (code : Int) (bytes : List Nat)
    (hvariant : ((∃ v, d = Data.Reserved v) ∧ code = RESERVED)
      ∨ ((∃ s, d = Data.Utf8 s) ∧ code = UTF8)
      ∨ ((∃ v, d = Data.Jpeg v) ∧ code = JPEG)
      ∨ ((∃ v, d = Data.Png v) ∧ code = PNG))
    (hw : d.write_raw = Except.ok bytes) :
    Data.parse (Data.Unparsed code) ⟨bytes, 0⟩ bytes.length
        = (Except.ok (), d, ⟨bytes, bytes.length⟩)
    ∧ d.len = bytes.length := by
  rcases hvariant with ⟨⟨v, rfl⟩, rfl⟩ | ⟨⟨s, rfl⟩, rfl⟩ | ⟨⟨v, rfl⟩, rfl⟩ | ⟨⟨v, rfl⟩, rfl⟩
  · injection hw with hb
    subst hb
    refine ⟨?_, rfl⟩
    rw [parse_unparsed_not_typed RESERVED (by decide)]
    simpa using dispatch_reserved (Data.Unparsed RESERVED) v v [] 0 (by simp) (by simp)
  · injection hw with hb
    subst hb
    refine ⟨?_, rfl⟩
    rw [parse_unparsed_not_typed UTF8 (by decide)]
    simpa using dispatch_utf8 (Data.Unparsed UTF8) (utf8Encode s) [] s 0 (by simp) (by simp)
  · injection hw with hb
    subst hb
    refine ⟨?_, rfl⟩
    rw [parse_unparsed_not_typed JPEG (by decide)]
    simpa using dispatch_jpeg (Data.Unparsed JPEG) v v [] 0 (by simp) (by simp)
  · injection hw with hb
    subst hb
    refine ⟨?_, rfl⟩
    rw [parse_unparsed_not_typed PNG (by decide)]
    simpa using dispatch_png (Data.Unparsed PNG) v v [] 0 (by simp) (by simp)

theorem C2_raw_roundtrip_witness :
    Data.parse (Data.Unparsed RESERVED) ⟨[1, 2, 3], 0⟩ 3
        = (Except.ok (), Data.Reserved [1, 2, 3], ⟨[1, 2, 3], 3⟩)
    ∧ (Data.Reserved [1, 2, 3]).len = 3 :=
  C2_raw_roundtrip (Data.Reserved [1, 2, 3]) RESERVED [1, 2, 3]
    (Or.inl ⟨⟨[1, 2, 3], rfl⟩, rfl⟩) rfl

/-- Claim C3: decoding `Unparsed code` for a code in the supported set
{0, 1, 2, 13, 14} with a suitable payload succeeds and moves to the
matching resolved variant; for every other code apart from the TYPED
sentinel it fails with `UnknownDataType` carrying that code, and the value
stays `Unparsed code` with the source untouched. -/
theorem C3_code_dispatch :
    (∀ v : List Nat, Data.parse (Data.Unparsed RESERVED) ⟨v, 0⟩ v.length
        = (Except.ok (), Data.Reserved v, ⟨v, v.length⟩))
    ∧ (∀ s : List Char, Data.parse (Data.Unparsed UTF8) ⟨utf8Encode s, 0⟩ (utf8Encode s).length
        = (Except.ok (), Data.Utf8 s, ⟨utf8Encode s, (utf8Encode s).length⟩))
    ∧ (∀ s : List Char,
        Data.parse (Data.Unparsed UTF16) ⟨u16sBytes (utf16Encode s), 0⟩
            (u16sBytes (utf16Encode s)).length
        = (Except.ok (), Data.Utf16 s,
           ⟨u16sBytes (utf16Encode s), (u16sBytes (utf16Encode s)).length⟩))
    ∧ (∀ v : List Nat, Data.parse (Data.Unparsed JPEG) ⟨v, 0⟩ v.length
        = (Except.ok (), Data.Jpeg v, ⟨v, v.length⟩))
    ∧ (∀ v : List Nat, Data.parse (Data.Unparsed PNG) ⟨v, 0⟩ v.length
        = (Except.ok (), Data.Png v, ⟨v, v.length⟩))
    ∧ (∀ (code : Int) (r : ByteReader) (l : Nat),
        code ≠ TYPED → code ≠ RESERVED → code ≠ UTF8 → code ≠ UTF16 →
        code ≠ JPEG → code ≠ PNG →
        Data.parse (Data.Unparsed code) r l
          = (Except.error ⟨ErrKind.UnknownDataType code, "Unknown datatype code"⟩,
             Data.Unparsed code, r)) := by
  refine ⟨?_, ?_, ?_, ?_, ?_, parse_unknown⟩
  · intro v
    rw [parse_unparsed_not_typed RESERVED (by decide)]
    simpa using dispatch_reserved (Data.Unparsed RESERVED) v v [] 0 (by simp) (by simp)
  · intro s
    rw [parse_unparsed_not_typed UTF8 (by decide)]
    simpa using dispatch_utf8 (Data.Unparsed UTF8) (utf8Encode s) [] s 0 (by simp) (by simp)
  · intro s
    rw [parse_unparsed_not_typed UTF16 (by decide)]
    simpa using dispatch_utf16 (Data.Unparsed UTF16) (u16sBytes (utf16Encode s)) [] s 0
      (by simp) (by simp)
  · intro v
    rw [parse_unparsed_not_typed JPEG (by decide)]
    simpa using dispatch_jpeg (Data.Unparsed JPEG) v v [] 0 (by simp) (by simp)
  · intro v
    rw [parse_unparsed_not_typed PNG (by decide)]
    simpa using dispatch_png (Data.Unparsed PNG) v v [] 0 (by simp) (by simp)

theorem C3_code_dispatch_witness :
    Data.parse (Data.Unparsed RESERVED) ⟨[9], 0⟩ 1
        = (Except.ok (), Data.Reserved [9], ⟨[9], 1⟩)
    ∧ Data.parse (Data.Unparsed 21) ⟨[9], 0⟩ 1
        = (Except.error ⟨ErrKind.UnknownDataType 21, "Unknown datatype code"⟩,
           Data.Unparsed 21, ⟨[9], 0⟩) :=
  ⟨C3_code_dispatch.1 [9],
   C3_code_dispatch.2.2.2.2.2 21 ⟨[9], 0⟩ 1 (by decide) (by decide) (by decide)
     (by decide) (by decide) (by decide)⟩

/-- Claim C5: decoding an `Unparsed` value carrying the TYPED sentinel:
with a declared length of at most 8 it fails with the header-too-short
parsing error and the value and source stay unchanged; with a larger
declared length it reads a signed 4-byte big-endian effective type code,
skips the following 4 bytes without looking at them, and dispatches on the
effective code with a remaining budget of `declared_length - 8`. -/
theorem C5_typed_subheader (r : ByteReader) (l : Nat) :
    (l ≤ 8 →
      Data.parse (Data.Unparsed TYPED) r l
        = (Except.error ⟨ErrKind.Parsing, "Typed data head to short"⟩,
           Data.Unparsed TYPED, r))
    ∧ (8 < l → r.pos + 4 ≤ r.data.length →
      Data.parse (Data.Unparsed TYPED) r l
        = Data.parseDispatch (Data.Unparsed TYPED)
            (toI32 (beNat ((r.data.drop r.pos).take 4))) (l - 8) ⟨r.data, r.pos + 8⟩) :=
  ⟨parse_typed_short r l, parse_typed_header r l⟩

theorem C5_typed_subheader_witness :
    Data.parse (Data.Unparsed TYPED) ⟨[], 0⟩ 8
        = (Except.error ⟨ErrKind.Parsing, "Typed data head to short"⟩,
           Data.Unparsed TYPED, ⟨[], 0⟩)
    ∧ Data.parse (Data.Unparsed TYPED) ⟨[0, 0, 0, 13, 9, 9, 9, 9, 1, 2], 0⟩ 10
        = Data.parseDispatch (Data.Unparsed TYPED) 13 2 ⟨[0, 0, 0, 13, 9, 9, 9, 9, 1, 2], 8⟩ :=
  ⟨(C5_typed_subheader ⟨[], 0⟩ 8).1 (by decide),
   (C5_typed_subheader ⟨[0, 0, 0, 13, 9, 9, 9, 9, 1, 2], 0⟩ 10).2 (by decide) (by decide)⟩

/-- Claim C6: for an odd remaining budget, the UTF-16 reader reads
`budget / 2` big-endian code units, then consumes exactly one extra
trailing byte that is not part of the decoded text: it ends at position
`pos + budget`, and the decoded string is the one obtained from the code
units alone. -/
theorem C6_utf16_odd_padding (r : ByteReader) (l : Nat) (hodd : l % 2 = 1)
    (hlen : r.pos + l ≤ r.data.length) :
    Data.read_utf16 r l
      = match fromUtf16 (bytesToU16 ((r.data.drop r.pos).take (2 * (l / 2)))) with
        | some s => Except.ok (s, ⟨r.data, r.pos + l⟩)
        | none => Except.error encodingErr := by
  obtain ⟨buf, p⟩ := r
  simp only at hlen
  rw [Data.read_utf16, Data.read_u16_vec]
  have hmid : ((buf.drop p).take (2 * (l / 2))).length = 2 * (l / 2) := by
    rw [List.length_take, List.length_drop]
    omega
  rw [readExact_split buf ((buf.drop p).take (2 * (l / 2))) ((buf.drop p).drop (2 * (l / 2)))
    p (2 * (l / 2)) (by omega) hmid (by rw [List.take_append_drop])]
  simp only [hodd, if_pos]
  have hseek : seekCur ⟨buf, p + 2 * (l / 2)⟩ 1 = ⟨buf, p + l⟩ := by
    simp only [seekCur]
    congr 1
    omega
  rw [hseek]

theorem C6_utf16_odd_padding_witness :
    Data.read_utf16 ⟨[0, 65, 7], 0⟩ 3 = Except.ok (['A'], ⟨[0, 65, 7], 3⟩) :=
  C6_utf16_odd_padding ⟨[0, 65, 7], 0⟩ 3 (by decide) (by decide)

/-- Claim C7, counterexample: for the resolved value `Reserved []` the
written typed form is exactly the 8 header bytes, and decoding it back
with the TYPED sentinel and the written length 8 fails with the
header-too-short parsing error instead of reproducing the value. -/
theorem C7_counterexample :
    (Data.Reserved []).write_typed = Except.ok [0, 0, 0, 0, 0, 0, 0, 0]
    ∧ Data.parse (Data.Unparsed TYPED) ⟨[0, 0, 0, 0, 0, 0, 0, 0], 0⟩ 8
        = (Except.error ⟨ErrKind.Parsing, "Typed data head to short"⟩,
           Data.Unparsed TYPED, ⟨[0, 0, 0, 0, 0, 0, 0, 0], 0⟩)
    ∧ Data.Unparsed TYPED ≠ Data.Reserved [] := by
  decide

/-- Claim C7, amended: for every resolved value with a nonempty raw
payload, write_typed writes the 4-byte signed big-endian type code
(0/1/2/13/14 by variant), then 4 zero bytes, then the raw payload; and
decoding those bytes into an `Unparsed` value carrying the TYPED sentinel
with the written length reproduces a value equal to the original.  (For an
empty payload the written length is exactly 8 and decoding fails with the
header-too-short error, see the counterexample.) -/
theorem C7_typed_roundtrip (d : Data) (code : Int) (raw : List Nat)
    (hvariant : ((∃ v, d = Data.Reserved v) ∧ code = RESERVED)
      ∨ ((∃ s, d = Data.Utf8 s) ∧ code = UTF8)
      ∨ ((∃ s, d = Data.Utf16 s) ∧ code = UTF16)
      ∨ ((∃ v, d = Data.Jpeg v) ∧ code = JPEG)
      ∨ ((∃ v, d = Data.Png v) ∧ code = PNG))
    (hw : d.write_raw = Except.ok raw) (hne : raw ≠ []) :
    d.write_typed = Except.ok (i32Bytes code ++ [0, 0, 0, 0] ++ raw)
    ∧ Data.parse (Data.Unparsed TYPED) ⟨i32Bytes code ++ [0, 0, 0, 0] ++ raw, 0⟩
        (i32Bytes code ++ [0, 0, 0, 0] ++ raw).length
      = (Except.ok (), d,
         ⟨i32Bytes code ++ [0, 0, 0, 0] ++ raw,
          (i32Bytes code ++ [0, 0, 0, 0] ++ raw).length⟩) := by
  rcases hvariant with ⟨⟨v, rfl⟩, rfl⟩ | ⟨⟨s, rfl⟩, rfl⟩ | ⟨⟨s, rfl⟩, rfl⟩
    | ⟨⟨v, rfl⟩, rfl⟩ | ⟨⟨v, rfl⟩, rfl⟩
  · injection hw with hb
    subst hb
    refine ⟨rfl, ?_⟩
    rw [parse_typed_step RESERVED v hne (by decide)]
    rw [dispatch_reserved (Data.Unparsed TYPED) (i32Bytes RESERVED ++ [0, 0, 0, 0] ++ v) v [] 8
      (by simp [i32Bytes]) (by rw [show i32Bytes RESERVED = [0, 0, 0, 0] from by decide]; simp)]
    have hL : (i32Bytes RESERVED ++ [0, 0, 0, 0] ++ v).length = 8 + v.length := by
      simp [i32Bytes]
      omega
    rw [hL]
  · injection hw with hb
    subst hb
    refine ⟨rfl, ?_⟩
    rw [parse_typed_step UTF8 (utf8Encode s) hne (by decide)]
    rw [dispatch_utf8 (Data.Unparsed TYPED) (i32Bytes UTF8 ++ [0, 0, 0, 0] ++ utf8Encode s) [] s 8
      (by simp [i32Bytes]) (by rw [show i32Bytes UTF8 = [0, 0, 0, 1] from by decide]; simp)]
    have hL : (i32Bytes UTF8 ++ [0, 0, 0, 0] ++ utf8Encode s).length
        = 8 + (utf8Encode s).length := by
      simp [i32Bytes]
      omega
    rw [hL]
  · injection hw with hb
    subst hb
    refine ⟨rfl, ?_⟩
    rw [parse_typed_step UTF16 (u16sBytes (utf16Encode s)) hne (by decide)]
    rw [dispatch_utf16 (Data.Unparsed TYPED)
      (i32Bytes UTF16 ++ [0, 0, 0, 0] ++ u16sBytes (utf16Encode s)) [] s 8
      (by simp [i32Bytes]) (by rw [show i32Bytes UTF16 = [0, 0, 0, 2] from by decide]; simp)]
    have hL : (i32Bytes UTF16 ++ [0, 0, 0, 0] ++ u16sBytes (utf16Encode s)).length
        = 8 + (u16sBytes (utf16Encode s)).length := by
      simp [i32Bytes]
      omega
    rw [hL]
  · injection hw with hb
    subst hb
    refine ⟨rfl, ?_⟩
    rw [parse_typed_step JPEG v hne (by decide)]
    rw [dispatch_jpeg (Data.Unparsed TYPED) (i32Bytes JPEG ++ [0, 0, 0, 0] ++ v) v [] 8
      (by simp [i32Bytes]) (by rw [show i32Bytes JPEG = [0, 0, 0, 13] from by decide]; simp)]
    have hL : (i32Bytes JPEG ++ [0, 0, 0, 0] ++ v).length = 8 + v.length := by
      simp [i32Bytes]
      omega
    rw [hL]
  · injection hw with hb
    subst hb
    refine ⟨rfl, ?_⟩
    rw [parse_typed_step PNG v hne (by decide)]
    rw [dispatch_png (Data.Unparsed TYPED) (i32Bytes PNG ++ [0, 0, 0, 0] ++ v) v [] 8
      (by simp [i32Bytes]) (by rw [show i32Bytes PNG = [0, 0, 0, 14] from by decide]; simp)]
    have hL : (i32Bytes PNG ++ [0, 0, 0, 0] ++ v).length = 8 + v.length := by
      simp [i32Bytes]
      omega
    rw [hL]

theorem C7_typed_roundtrip_witness :
    (Data.Utf8 ['A']).write_typed = Except.ok [0, 0, 0, 1, 0, 0, 0, 0, 65]
    ∧ Data.parse (Data.Unparsed TYPED) ⟨[0, 0, 0, 1, 0, 0, 0, 0, 65], 0⟩ 9
        = (Except.ok (), Data.Utf8 ['A'], ⟨[0, 0, 0, 1, 0, 0, 0, 0, 65], 9⟩) :=
  C7_typed_roundtrip (Data.Utf8 ['A']) UTF8 [65]
    (Or.inr (Or.inl ⟨⟨['A'], rfl⟩, rfl⟩)) rfl (by decide)
